import Mathlib

/-!
Verification of the training/evaluation orchestration layer of the
Clenshaw-GNN LINKX training script (`train_clenshaw_linkx.py`).

The script's pure control and arithmetic logic is shallowly embedded:
tensors become lists of rationals, the optimizer/epoch discipline becomes
an explicit event trace, the early-stopping keeper becomes a state
machine, and the cross-validation driver's seed drawing becomes explicit
state passing over an abstract generator step function.
-/

namespace Clenshaw

/-! ## Early stopping (`EarlyStopping` from `utils/stopper.py`, consumed
by `build_stopper` and the epoch loop of `run`) -/

/-- State of the early-stopping keeper: the best (lowest) validation score
seen so far (`none` before the first call), the count of consecutive
non-improving calls, whether the stop signal has fired, and the content of
the checkpoint file (the snapshot most recently persisted, `none` while no
snapshot has ever been written).  The model snapshot type is abstract. -/
structure EarlyStopState (M : Type) where
  best : Option ℚ
  counter : Nat
  stopped : Bool
  checkpoint : Option M
  deriving Repr, DecidableEq

/-- The fresh keeper state built by `build_stopper`: no best score, zero
counter, monitoring, no checkpoint written yet. -/
def EarlyStopState.fresh (M : Type) : EarlyStopState M :=
  { best := none, counter := 0, stopped := false, checkpoint := none }

/-- Modelled from the spec: the step function of `EarlyStopping`
(`utils/stopper.py`, not part of the provided sources — only its caller
`build_stopper`/`run` is).  Per spec §4.3: if no best score is recorded
yet or the candidate is lower than the best, persist the snapshot
(overwriting the checkpoint), set best to the candidate, reset the
counter, signal "do not stop"; otherwise increment the counter and signal
"stop" exactly when the counter reaches the patience. -/
def earlyStopStep {M : Type} (patience : Nat) (score : ℚ) (model : M)
    (s : EarlyStopState M) : Bool × EarlyStopState M :=
  match s.best with
  | none =>
      (false, { best := some score, counter := 0, stopped := false,
                checkpoint := some model })
  | some b =>
      if score < b then
        (false, { best := some score, counter := 0, stopped := false,
                  checkpoint := some model })
      else
        let c := s.counter + 1
        if patience ≤ c then
          (true, { s with counter := c, stopped := true })
        else
          (false, { s with counter := c })

/-! ## The epoch loop of `run` (lines 112–140)

Each iteration trains the model (the in-memory model state is abstracted
as the number of completed epochs), evaluates the validation loss, and —
when early stopping is enabled — feeds the validation loss into the
keeper, breaking out of the loop as soon as the keeper signals stop.
`valLoss e` is the validation loss observed at epoch `e` (the numeric
outcome of training is an external input to this control layer). -/

/-- Epoch loop with early stopping, from epoch `e`, with `fuel` epochs of
budget remaining.  Returns the number of epochs actually executed and the
final keeper state.  The model snapshot handed to the keeper at epoch `e`
is `e` itself (a proxy for the in-memory parameters after that epoch's
update). -/
def runEpochsAux (patience : Nat) (valLoss : Nat → ℚ) :
    Nat → Nat → EarlyStopState Nat → Nat × EarlyStopState Nat
  | _, 0, s => (0, s)
  | e, fuel + 1, s =>
      let r := earlyStopStep patience (valLoss e) e s
      if r.1 then (1, r.2)
      else
        let rest := runEpochsAux patience valLoss (e + 1) fuel r.2
        (rest.1 + 1, rest.2)

/-- The early-stopping epoch loop of `run`: at most `nEpochs` epochs,
starting from a fresh keeper. -/
def runEpochs (patience nEpochs : Nat) (valLoss : Nat → ℚ) :
    Nat × EarlyStopState Nat :=
  runEpochsAux patience valLoss 0 nEpochs (EarlyStopState.fresh Nat)

/-- Key lemma: from a recorded state (best = `b`, counter = `c`, not
stopped), if every remaining score fails to improve on `b`, the keeper
signals stop after exactly `d` more calls where `c + d = patience`,
and the loop executes exactly `d` more epochs. -/
theorem runEpochsAux_stops (patience : Nat) (valLoss : Nat → ℚ) (b : ℚ)
    (cp : Option Nat) :
    ∀ d e fuel c, c + d = patience → 1 ≤ d → d ≤ fuel →
    (∀ i, e ≤ i → b ≤ valLoss i) →
    runEpochsAux patience valLoss e fuel
        { best := some b, counter := c, stopped := false, checkpoint := cp }
      = (d, { best := some b, counter := patience, stopped := true,
              checkpoint := cp }) := by
  intro d
  induction d with
  | zero => intro e fuel c _ h1 _ _; omega
  | succ d ih =>
      intro e fuel c hc _ hfuel hb
      obtain ⟨f, rfl⟩ : ∃ f, fuel = f + 1 := ⟨fuel - 1, by omega⟩
      have hni : ¬ valLoss e < b := not_lt.mpr (hb e le_rfl)
      by_cases hd : d = 0
      · subst hd
        have hstop : patience ≤ c + 1 := by omega
        simp only [runEpochsAux, earlyStopStep, hni, if_false, hstop,
          if_true]
        simp [hc.symm]
      · have hlt : ¬ patience ≤ c + 1 := by omega
        have hrec := ih (e + 1) f (c + 1) (by omega) (by omega) (by omega)
          (fun i hi => hb i (by omega))
        simp only [runEpochsAux, earlyStopStep, hni, if_false, hlt]
        simp [hrec]

/-- C1: The early-stopping step records an improving score (persisting
the snapshot, resetting the counter, signalling "do not stop"), and for
patience `P ≥ 1` a strictly monotonically worsening validation-loss
sequence makes the loop of `run` terminate on exactly the `(P+1)`-th
call: exactly `P + 1` epochs execute (the epoch budget `n ≥ P + 1`
notwithstanding), the keeper is stopped with counter `P`, and the
checkpoint still holds the snapshot persisted on the first call. -/
theorem earlyStop_worsening_stops_at_patience_plus_one
    (P n : Nat) (valLoss : Nat → ℚ)
    (hP : 1 ≤ P) (hn : P + 1 ≤ n)
    (hmono : ∀ i j, i < j → valLoss i < valLoss j) :
    runEpochs P n valLoss
      = (P + 1, { best := some (valLoss 0), counter := P, stopped := true,
                  checkpoint := some 0 }) := by
  obtain ⟨m, rfl⟩ : ∃ m, n = m + 1 := ⟨n - 1, by omega⟩
  have hfirst : earlyStopStep P (valLoss 0) 0 (EarlyStopState.fresh Nat)
      = (false, { best := some (valLoss 0), counter := 0, stopped := false,
                  checkpoint := some 0 }) := rfl
  have hrest := runEpochsAux_stops P valLoss (valLoss 0) (some 0) P 1 m 0
    (by omega) hP (by omega)
    (fun i hi => le_of_lt (hmono 0 i (by omega)))
  simp only [runEpochs, runEpochsAux, hfirst]
  simp [hrest]

/-- Witness for C1 at patience 2, budget 5, losses `e ↦ e`. -/
theorem earlyStop_worsening_stops_witness :
    runEpochs 2 5 (fun e => (e : ℚ))
      = (3, { best := some 0, counter := 2, stopped := true,
              checkpoint := some 0 }) :=
  earlyStop_worsening_stops_at_patience_plus_one 2 5 (fun e => (e : ℚ))
    (by norm_num) (by norm_num)
    (fun i j h => by simp only []; exact_mod_cast h)

/-! ## Tail of `run` (lines 142–148): selecting the model for the final
validation/test metrics.  With early stopping enabled the script executes
`model.load_state_dict(th.load(stopper.store_path))` unconditionally
before both final `evaluate` calls; without it, the in-memory model at
loop exit is evaluated as-is. -/

/-- The in-memory model at loop exit (as the epoch-index proxy of the
last epoch that trained it): with early stopping, the last epoch the loop
actually executed; without, the last epoch of the full budget. -/
def inMemoryAtExit (earlyStop : Bool) (patience nEpochs : Nat)
    (valLoss : Nat → ℚ) : Nat :=
  if earlyStop then (runEpochs patience nEpochs valLoss).1 - 1
  else nEpochs - 1

/-- The model whose parameters the final validation/test metrics are
computed on.  With early stopping the persisted checkpoint file is
re-loaded (`none` models the fatal load of a never-written checkpoint);
otherwise the in-memory model is used as-is. -/
def finalMetricsModel (earlyStop : Bool) (patience nEpochs : Nat)
    (valLoss : Nat → ℚ) : Option Nat :=
  if earlyStop then (runEpochs patience nEpochs valLoss).2.checkpoint
  else some (inMemoryAtExit earlyStop patience nEpochs valLoss)

/-- C2: with early stopping enabled the final metrics are computed on the
re-loaded checkpoint content (whether the loop stopped early or exhausted
its budget); with it disabled, on the in-memory model at loop exit.  In
particular, under a strictly worsening loss sequence the reloaded model
is the first-epoch snapshot, not the in-memory model of the last executed
epoch. -/
theorem run_reloads_checkpoint_for_final_metrics
    (P n : Nat) (valLoss : Nat → ℚ)
    (hP : 1 ≤ P) (hn : P + 1 ≤ n)
    (hmono : ∀ i j, i < j → valLoss i < valLoss j) :
    (∀ P' n' vl, finalMetricsModel true P' n' vl
        = (runEpochs P' n' vl).2.checkpoint) ∧
    (∀ P' n' vl, finalMetricsModel false P' n' vl = some (n' - 1)) ∧
    finalMetricsModel true P n valLoss = some 0 ∧
    inMemoryAtExit true P n valLoss = P := by
  refine ⟨fun P' n' vl => rfl, fun P' n' vl => rfl, ?_, ?_⟩
  · simp [finalMetricsModel,
      earlyStop_worsening_stops_at_patience_plus_one P n valLoss hP hn hmono]
  · simp [inMemoryAtExit,
      earlyStop_worsening_stops_at_patience_plus_one P n valLoss hP hn hmono]

/-- Witness for C2 at patience 2, budget 5, losses `e ↦ e`. -/
theorem run_reloads_checkpoint_witness :
    finalMetricsModel true 2 5 (fun e => (e : ℚ)) = some 0 ∧
    inMemoryAtExit true 2 5 (fun e => (e : ℚ)) = 2 := by
  have h := run_reloads_checkpoint_for_final_metrics 2 5 (fun e => (e : ℚ))
    (by norm_num) (by norm_num)
    (fun i j hij => by simp only []; exact_mod_cast hij)
  exact ⟨h.2.2.1, h.2.2.2⟩

/-! ## Forward-output handling (`evaluate` lines 67–71 and the training
step of `run` lines 119–120)

The model's forward pass may return a bare tensor or a container (tuple)
whose first element is the logits tensor.  `evaluate` normalizes:
`if not th.is_tensor(logits): logits = logits[0]`.  The training-loss
computation in `run` indexes the returned value directly with the train
mask, which only works for a bare tensor. -/

/-- The value produced by `model(features)`: either a bare tensor or a
container of tensors of which the first is the logits matrix. -/
inductive ForwardOut (α : Type) where
  | tensor (m : α)
  | container (ms : List α)
  deriving Repr, DecidableEq

/-- Logits as extracted by `evaluate` (lines 68–70): a bare tensor is
used directly, otherwise element 0 of the container is taken (`none` if
the container is empty: a fatal index error). -/
def evalLogits {α : Type} : ForwardOut α → Option α
  | .tensor m => some m
  | .container ms => ms.head?

/-- Logits as used by the training-loss computation of `run` (lines
119–120): the returned value is indexed with the boolean train mask
directly, which succeeds only on a bare tensor; on a container the
indexing is a fatal type error (`none`). -/
def trainLogits {α : Type} : ForwardOut α → Option α
  | .tensor m => some m
  | .container _ => none

/-- C3 counterexample: the claim says the training-loss computation also
extracts the first element of a container, but at the concrete container
`[[[1]]]` (one one-by-one matrix) the training path yields no logits
matrix at all, while `evaluate` extracts `[[1]]`. -/
theorem trainLogits_no_normalization :
    trainLogits (ForwardOut.container [[[(1 : ℚ)]]]) = none ∧
    evalLogits (ForwardOut.container [[[(1 : ℚ)]]]) = some [[(1 : ℚ)]] ∧
    trainLogits (ForwardOut.container [[[(1 : ℚ)]]])
      ≠ evalLogits (ForwardOut.container [[[(1 : ℚ)]]]) := by
  refine ⟨rfl, rfl, ?_⟩
  simp [trainLogits, evalLogits]

/-- C3 amended: `evaluate` normalizes the forward output (bare matrix
used directly, first element extracted from a container), but the
per-epoch training-loss computation uses the returned value directly as
a matrix and performs no extraction on a container. -/
theorem forward_output_normalization
    (m : List (List ℚ)) (ms : List (List (List ℚ))) :
    evalLogits (ForwardOut.tensor m) = some m ∧
    evalLogits (ForwardOut.container (m :: ms)) = some m ∧
    trainLogits (ForwardOut.tensor m) = some m ∧
    trainLogits (ForwardOut.container (m :: ms)) = none :=
  ⟨rfl, rfl, rfl, rfl⟩

/-! ## Seed drawing in `main` (lines 153–159) and `reset_random_seeds`
(lines 234–238)

`main` seeds the process-level generator exactly once
(`reset_random_seeds(args.seed)`), then draws `n_cv` split seeds followed
by `n_cv` model-init seeds from it with `random.randint(0, 10000)`.  The
generator is embedded abstractly: `step` maps a generator state to the
drawn value and the next state, and `seedGen` maps the top-level seed to
the initial generator state; both are arbitrary deterministic
functions. -/

/-- Generator state after `k` draws from state `g`. -/
def nthGenState (step : Nat → Nat × Nat) (g : Nat) : Nat → Nat
  | 0 => g
  | k + 1 => (step (nthGenState step g k)).2

/-- Value of the `k`-th draw (0-based) from state `g`. -/
def nthDraw (step : Nat → Nat × Nat) (g k : Nat) : Nat :=
  (step (nthGenState step g k)).1

/-- Draw `k` successive values from the generator, as the list
comprehension `[random.randint(0,10000) for i in range(k)]` does;
returns the values and the final generator state. -/
def drawInts (step : Nat → Nat × Nat) : Nat → Nat → List Nat × Nat
  | g, 0 => ([], g)
  | g, k + 1 =>
      let r := step g
      let rest := drawInts step r.2 k
      (r.1 :: rest.1, rest.2)

/-- The per-run seed lists drawn by `main`: `data.seeds` (split seeds)
first, then `model_seeds`, both from the single process-level generator
seeded once with the top-level seed. -/
def driverSeeds (step : Nat → Nat × Nat) (seedGen : Nat → Nat)
    (seed ncv : Nat) : List Nat × List Nat :=
  let g0 := seedGen seed
  let r1 := drawInts step g0 ncv
  let r2 := drawInts step r1.2 ncv
  (r1.1, r2.1)

theorem nthGenState_shift (step : Nat → Nat × Nat) (g : Nat) :
    ∀ k, nthGenState step (step g).2 k = nthGenState step g (k + 1) := by
  intro k
  induction k with
  | zero => rfl
  | succ k ih => simp only [nthGenState, ih]

theorem nthDraw_shift (step : Nat → Nat × Nat) (g k : Nat) :
    nthDraw step (step g).2 k = nthDraw step g (k + 1) := by
  simp only [nthDraw, nthGenState_shift]

theorem nthGenState_add (step : Nat → Nat × Nat) (g : Nat) :
    ∀ m k, nthGenState step (nthGenState step g m) k
      = nthGenState step g (m + k) := by
  intro m k
  induction k with
  | zero => rfl
  | succ k ih => simp only [nthGenState, ih, Nat.add_succ]; rfl

theorem drawInts_state (step : Nat → Nat × Nat) :
    ∀ k g, (drawInts step g k).2 = nthGenState step g k := by
  intro k
  induction k with
  | zero => intro g; rfl
  | succ k ih =>
      intro g
      simp only [drawInts, ih, nthGenState_shift]

theorem drawInts_get (step : Nat → Nat × Nat) :
    ∀ k g i, i < k →
      (drawInts step g k).1[i]? = some (nthDraw step g i) := by
  intro k
  induction k with
  | zero => intro g i h; omega
  | succ k ih =>
      intro g i h
      match i with
      | 0 => simp [drawInts, nthDraw, nthGenState]
      | j + 1 =>
          have := ih (step g).2 j (by omega)
          simp only [drawInts, List.getElem?_cons_succ, this,
            nthDraw_shift]

/-- C4: determinism of the seed streams.  Each run's split seed and
model-init seed are pure functions of the top-level seed, the run count
and the run index alone — the split seed at run `i` is draw `i` of the
generator seeded from the top-level seed and the model-init seed is draw
`ncv + i` — so any two executions of the driver with identical top-level
seed (and configuration) obtain identical seeds at every run index. -/
theorem driverSeeds_deterministic (step : Nat → Nat × Nat)
    (seedGen : Nat → Nat) (seed ncv i : Nat) (h : i < ncv) :
    (driverSeeds step seedGen seed ncv).1[i]?
        = some (nthDraw step (seedGen seed) i) ∧
    (driverSeeds step seedGen seed ncv).2[i]?
        = some (nthDraw step (seedGen seed) (ncv + i)) := by
  constructor
  · simp only [driverSeeds]
    exact drawInts_get step ncv (seedGen seed) i h
  · simp only [driverSeeds, drawInts_state]
    rw [drawInts_get step ncv (nthGenState step (seedGen seed) ncv) i h,
      nthDraw, nthGenState_add, nthDraw]

/-- Witness for C4 with a concrete linear-congruential step, identity
seeding, top-level seed 42, three runs, index 1. -/
theorem driverSeeds_deterministic_witness :
    (driverSeeds (fun g => (g % 10001, 7 * g + 3)) (fun s => s) 42 3).1[1]?
        = some (nthDraw (fun g => (g % 10001, 7 * g + 3)) 42 1) ∧
    (driverSeeds (fun g => (g % 10001, 7 * g + 3)) (fun s => s) 42 3).2[1]?
        = some (nthDraw (fun g => (g % 10001, 7 * g + 3)) 42 4) :=
  driverSeeds_deterministic (fun g => (g % 10001, 7 * g + 3))
    (fun s => s) 42 3 1 (by norm_num)

/-! ## `build_dataset` (lines 20–26), `build_model` (lines 28–42) and the
mask-policy branch of `run` (lines 89–92) -/

/-- The dataset names the script accepts, as listed in `build_dataset`
and again in `run`. -/
def acceptedDatasets : List String := ["twitch-gamer", "Penn94", "genius"]

/-- Embedding of `build_dataset`: constructs the LINKX loader for an accepted dataset
name and raises `ValueError` for any other name.  The loader is
represented by the dataset name it was built for; a raised exception is
`Except.error` with the formatted message. -/
def build_dataset (dataset : String) : Except String String :=
  if dataset ∈ acceptedDatasets then Except.ok dataset
  else Except.error ("Unknown dataset: " ++ dataset)

/-- Embedding of `build_model`: constructs and returns a `ChebNN` handle when the
model name is `ChebNN`; the function body has no other branch, so any
other model name falls off the end of the function and yields `None`
without raising anything.  The handle is represented by the model
name. -/
def build_model (modelName : String) : Except String (Option String) :=
  Except.ok (if modelName = "ChebNN" then some modelName else none)

/-- C5 counterexample: for the unrecognized model name `"GCN"`,
`build_model` does not raise a configuration error — it silently returns
no model — contradicting the claim that every unrecognized model name
raises a fatal configuration error at startup. -/
theorem build_model_unrecognized_no_error :
    build_model "GCN" = Except.ok none ∧
    ¬ ∃ msg, build_model "GCN" = Except.error msg := by
  constructor
  · rfl
  · rintro ⟨msg, hmsg⟩
    simp [build_model] at hmsg

/-- C5 amended: every unrecognized dataset name raises a fatal
configuration error (before any loader is allocated and before any
training begins), but an unrecognized model name raises no error at all:
`build_model` silently returns `None`, and only the later use of the
missing model fails. -/
theorem config_error_handling (d m : String)
    (hd : d ∉ acceptedDatasets) (hm : m ≠ "ChebNN") :
    build_dataset d = Except.error ("Unknown dataset: " ++ d) ∧
    build_model m = Except.ok none ∧
    build_model "ChebNN" = Except.ok (some "ChebNN") := by
  refine ⟨?_, ?_, rfl⟩
  · simp [build_dataset, hd]
  · simp [build_model, hm]

/-- Witness for C5 (amended) at dataset `"cora"` and model `"GCN"`. -/
theorem config_error_handling_witness :
    build_dataset "cora" = Except.error ("Unknown dataset: " ++ "cora") ∧
    build_model "GCN" = Except.ok none ∧
    build_model "ChebNN" = Except.ok (some "ChebNN") :=
  config_error_handling "cora" "GCN" (by decide) (by decide)

/-- The mask acquisition of `run`: accepted (fixed-split) datasets call
`data.load_mask()` with no proportions; any other dataset name would call
`data.load_mask(p=(0.6, 0.2, 0.2))`. -/
inductive MaskPolicy where
  | fixedSplit
  | randomSplit (p : ℚ × ℚ × ℚ)
  deriving Repr, DecidableEq

/-- Which mask path `run` takes for a given dataset name (lines 89–92). -/
def runMaskPolicy (dataset : String) : MaskPolicy :=
  if dataset ∈ acceptedDatasets then MaskPolicy.fixedSplit
  else MaskPolicy.randomSplit (3/5, 1/5, 1/5)

/-- C10: every dataset name that survives `build_dataset` takes the
fixed-split path in `run`; the random-split branch with proportions
(0.6, 0.2, 0.2) is unreachable because `build_dataset` raises for every
other name before any run starts. -/
theorem randomSplit_branch_unreachable (d : String)
    (h : ∃ loader, build_dataset d = Except.ok loader) :
    runMaskPolicy d = MaskPolicy.fixedSplit := by
  obtain ⟨loader, hl⟩ := h
  by_cases hmem : d ∈ acceptedDatasets
  · simp [runMaskPolicy, hmem]
  · simp [build_dataset, hmem] at hl

/-- Witness for C10 at dataset `"genius"`. -/
theorem randomSplit_branch_unreachable_witness :
    runMaskPolicy "genius" = MaskPolicy.fixedSplit :=
  randomSplit_branch_unreachable "genius" ⟨"genius", by rfl⟩

/-! ## `evaluate` (lines 65–83), accuracy mode

Tensors are embedded as lists of rationals; a logits matrix is a list of
rows.  Boolean mask indexing `t[mask]` keeps the rows at positions where
the mask is true.  `th.max(logits, dim=1)` yields per row the index of
the (first) maximal entry. -/

/-- A logits matrix: one row of class scores per node. -/
abbrev LogitsMatrix := List (List ℚ)

/-- Boolean mask indexing `t[mask]`: keep entries at true positions. -/
def maskSelect {α : Type} (mask : List Bool) (xs : List α) : List α :=
  (mask.zip xs).filterMap (fun p => if p.1 then some p.2 else none)

/-- Index of the first maximal entry of a row, as returned by
`th.max(logits, dim=1)` (index 0 for an empty row). -/
def argmaxAux : List ℚ → ℚ → Nat → Nat → Nat
  | [], _, _, best => best
  | x :: xs, bv, i, best =>
      if bv < x then argmaxAux xs x (i + 1) i
      else argmaxAux xs bv (i + 1) best

/-- Arg-max class of one row of logits. -/
def argmaxRow : List ℚ → Nat
  | [] => 0
  | x :: xs => argmaxAux xs x 1 0

/-- Embedding of `evaluate` in accuracy mode (lines 65–83, `evaluator` not
`'rocauc'`): run the forward pass on the full feature matrix, extract
the logits (C3's normalization), restrict logits and labels to the mask,
compute the loss with the supplied loss function, and return the
fraction of rows whose arg-max matches the label together with the
loss.  `none` models a fatal error extracting the logits. -/
def evaluateAcc (forward : LogitsMatrix → ForwardOut LogitsMatrix)
    (lossF : LogitsMatrix → List Nat → ℚ) (features : LogitsMatrix)
    (labels : List Nat) (mask : List Bool) : Option (ℚ × ℚ) :=
  match evalLogits (forward features) with
  | none => none
  | some logits =>
      let lg := maskSelect mask logits
      let lb := maskSelect mask labels
      let loss := lossF lg lb
      let correct :=
        (((lg.map argmaxRow).zip lb).filter (fun p => p.1 == p.2)).length
      some ((correct : ℚ) / (lb.length : ℚ), loss)

/-- Fraction of positions whose predicted class equals the label,
written independently of `evaluateAcc`'s internals. -/
def fractionTopOneCorrect (logits : LogitsMatrix) (labels : List Nat) : ℚ :=
  (((logits.map argmaxRow).zip labels).countP (fun p => p.1 == p.2) : ℚ)
    / (labels.length : ℚ)

/-- C6: whenever the forward pass yields an extractable logits matrix and
the mask selects at least one node, `evaluate` in accuracy mode returns
exactly the pair (fraction of mask-restricted rows whose arg-max class
equals the integer label, supplied loss function applied to the
mask-restricted logits and labels). -/
theorem evaluateAcc_correct
    (forward : LogitsMatrix → ForwardOut LogitsMatrix)
    (lossF : LogitsMatrix → List Nat → ℚ) (features : LogitsMatrix)
    (labels : List Nat) (mask : List Bool) (logits : LogitsMatrix)
    (hf : evalLogits (forward features) = some logits)
    (hne : 0 < (maskSelect mask labels).length) :
    evaluateAcc forward lossF features labels mask
      = some (fractionTopOneCorrect (maskSelect mask logits)
                (maskSelect mask labels),
              lossF (maskSelect mask logits) (maskSelect mask labels)) := by
  simp [evaluateAcc, hf, fractionTopOneCorrect,
    List.countP_eq_length_filter]

/-- Witness for C6: four nodes, two classes, identity-style logits,
all-true mask, constant-zero loss function; three of four arg-maxes
match the labels. -/
theorem evaluateAcc_correct_witness :
    evaluateAcc (fun fs => ForwardOut.tensor fs) (fun _ _ => 0)
        [[1, 0], [0, 1], [1, 0], [0, 1]] [0, 1, 0, 0]
        [true, true, true, true]
      = some (fractionTopOneCorrect
                (maskSelect [true, true, true, true]
                  [[1, 0], [0, 1], [1, 0], [0, 1]])
                (maskSelect [true, true, true, true] [0, 1, 0, 0]),
              0) :=
  evaluateAcc_correct (fun fs => ForwardOut.tensor fs) (fun _ _ => 0)
    [[1, 0], [0, 1], [1, 0], [0, 1]] [0, 1, 0, 0]
    [true, true, true, true] [[1, 0], [0, 1], [1, 0], [0, 1]]
    (by rfl) (by decide)

/-! ## Loss/metric selection in `run` (lines 96–102)

`run` chooses `NLLLoss` and accuracy mode for every dataset other than
`'genius'`; for `'genius'` it chooses `BCEWithLogitsLoss`, rocauc mode,
and replaces the integer label vector with its one-hot float encoding —
before the model is built and hence before any evaluation call. -/

/-- The loss function class the run constructs. -/
inductive LossKind where
  | nll
  | bceWithLogits
  deriving Repr, DecidableEq

/-- One-hot row of width `n` for class `y`:
entry 1 at position `y`, 0 elsewhere. -/
def oneHotRow (n y : Nat) : List ℚ :=
  (List.range n).map (fun j => if j = y then 1 else 0)

/-- Embedding of `F.one_hot(labels, labels.max()+1).float()`: each integer label
becomes a one-hot float row of width `labels.max() + 1`. -/
def oneHotLabels (labels : List Nat) : List (List ℚ) :=
  labels.map (oneHotRow (labels.foldr max 0 + 1))

/-- The (loss kind, evaluator tag, labels handed to every evaluation) a
run sets up for a given dataset name (lines 96–102). -/
def runEvalSetup (dataset : String) (labels : List Nat) :
    LossKind × String × (List Nat ⊕ List (List ℚ)) :=
  if dataset ≠ "genius" then (LossKind.nll, "acc", Sum.inl labels)
  else (LossKind.bceWithLogits, "rocauc", Sum.inr (oneHotLabels labels))

theorem foldr_max_le (labels : List Nat) :
    ∀ y, y ∈ labels → y ≤ labels.foldr max 0 := by
  induction labels with
  | nil => intro y h; cases h
  | cons x xs ih =>
      intro y h
      rcases List.mem_cons.mp h with rfl | hmem
      · exact le_max_left _ _
      · exact le_trans (ih y hmem) (le_max_right _ _)

/-- C7: a `'genius'` run uses binary-cross-entropy-with-logits loss,
rocauc mode, and one-hot float labels (each label row carrying a 1 at
the label's own index); every other accepted dataset uses
negative-log-likelihood loss, accuracy mode, and the integer labels
unchanged. -/
theorem genius_vs_other_eval_setup (labels : List Nat) (d : String)
    (hd : d ∈ acceptedDatasets) (hne : d ≠ "genius") :
    runEvalSetup "genius" labels
      = (LossKind.bceWithLogits, "rocauc", Sum.inr (oneHotLabels labels)) ∧
    runEvalSetup d labels = (LossKind.nll, "acc", Sum.inl labels) ∧
    (∀ (i y : Nat), labels[i]? = some y →
      (oneHotLabels labels)[i]?
        = some (oneHotRow (labels.foldr max 0 + 1) y) ∧
      (oneHotRow (labels.foldr max 0 + 1) y)[y]? = some 1) := by
  refine ⟨by simp [runEvalSetup], by simp [runEvalSetup, hne], ?_⟩
  intro i y hy
  have hymem : y ∈ labels := by
    rcases List.getElem?_eq_some.mp hy with ⟨hlt, rfl⟩
    exact List.getElem_mem hlt
  have hylt : y < labels.foldr max 0 + 1 :=
    Nat.lt_succ_of_le (foldr_max_le labels y hymem)
  constructor
  · simp [oneHotLabels, hy]
  · simp [oneHotRow, List.getElem?_range, hylt]

/-- Witness for C7 at dataset `"Penn94"` and labels `[1, 0, 2]`. -/
theorem genius_vs_other_eval_setup_witness :
    runEvalSetup "genius" [1, 0, 2]
      = (LossKind.bceWithLogits, "rocauc",
         Sum.inr (oneHotLabels [1, 0, 2])) ∧
    runEvalSetup "Penn94" [1, 0, 2]
      = (LossKind.nll, "acc", Sum.inl [1, 0, 2]) :=
  let h := genius_vs_other_eval_setup [1, 0, 2] "Penn94"
    (by decide) (by decide)
  ⟨h.1, h.2.1⟩

/-! ## `build_optimizers` (lines 45–56) and the per-epoch update
discipline of `run` (lines 112–125)

The script builds the list `[Adam over params1/params2, SGD over the
mixing parameters]` and, each epoch, iterates over that whole list to
clear gradients, then runs forward/loss/backward, then iterates over the
whole list again to step — no branch skips either optimizer. -/

/-- One parameter group of an optimizer: the parameter partition's name,
its learning rate and its weight decay. -/
structure ParamGroup where
  params : String
  lr : ℚ
  wd : ℚ
  deriving Repr, DecidableEq

/-- Configuration of one built optimizer. -/
structure OptimSpec where
  kind : String
  groups : List ParamGroup
  momentum : Option ℚ
  deriving Repr, DecidableEq

/-- Embedding of `build_optimizers`: the primary Adam over `params1` (convs, lr1/wd1)
and `params2` (fcs, lr2/wd2), and the secondary momentum-SGD over
`alpha_params` only (lr3/wd3). -/
def build_optimizers (lr1 lr2 lr3 wd1 wd2 wd3 mom : ℚ) : List OptimSpec :=
  [ { kind := "Adam",
      groups := [⟨"params1", lr1, wd1⟩, ⟨"params2", lr2, wd2⟩],
      momentum := none },
    { kind := "SGD",
      groups := [⟨"alpha_params", lr3, wd3⟩],
      momentum := some mom } ]

/-- Observable events of one epoch of the training loop; optimizers are
referred to by their index in the `build_optimizers` list (0 = Adam,
1 = SGD). -/
inductive TrainEvent where
  | zeroGrad (opt : Nat)
  | forwardPass
  | backwardPass
  | stepOpt (opt : Nat)
  | evalPass
  deriving Repr, DecidableEq

/-- The event trace of one epoch of `run` (lines 115–127): clear both
optimizers' gradients, forward, backward, step both optimizers,
evaluate on the validation mask. -/
def epochTrace : List TrainEvent :=
  ((List.range 2).map TrainEvent.zeroGrad)
    ++ [TrainEvent.forwardPass, TrainEvent.backwardPass]
    ++ ((List.range 2).map TrainEvent.stepOpt)
    ++ [TrainEvent.evalPass]

/-- The event trace of `n` epochs of the training loop. -/
def runTrace (n : Nat) : List TrainEvent :=
  (List.replicate n epochTrace).flatten

theorem runTrace_count (e : TrainEvent) :
    ∀ n, (runTrace n).count e = n * epochTrace.count e := by
  intro n
  induction n with
  | zero => simp [runTrace]
  | succ n ih =>
      simp only [runTrace, List.replicate_succ, List.flatten_cons,
        List.count_append] at ih ⊢
      rw [ih]; ring

/-- C8: the built optimizer pair is exactly primary Adam over
`params1`/`params2` (lr1/wd1, lr2/wd2) plus secondary momentum-SGD over
the mixing parameters only (lr3/wd3); each epoch's trace clears both
optimizers before the forward pass and steps both after the backward
pass with no conditional logic, so over any number of epochs the two
optimizers are cleared and stepped exactly the same number of times —
never independently. -/
theorem dual_optimizer_lockstep (lr1 lr2 lr3 wd1 wd2 wd3 mom : ℚ)
    (n : Nat) :
    build_optimizers lr1 lr2 lr3 wd1 wd2 wd3 mom
      = [ { kind := "Adam",
            groups := [⟨"params1", lr1, wd1⟩, ⟨"params2", lr2, wd2⟩],
            momentum := none },
          { kind := "SGD",
            groups := [⟨"alpha_params", lr3, wd3⟩],
            momentum := some mom } ] ∧
    epochTrace
      = [TrainEvent.zeroGrad 0, TrainEvent.zeroGrad 1,
         TrainEvent.forwardPass, TrainEvent.backwardPass,
         TrainEvent.stepOpt 0, TrainEvent.stepOpt 1,
         TrainEvent.evalPass] ∧
    (runTrace n).count (TrainEvent.zeroGrad 0) = n ∧
    (runTrace n).count (TrainEvent.zeroGrad 1) = n ∧
    (runTrace n).count (TrainEvent.stepOpt 0) = n ∧
    (runTrace n).count (TrainEvent.stepOpt 1) = n := by
  have hz0 : epochTrace.count (TrainEvent.zeroGrad 0) = 1 := by decide
  have hz1 : epochTrace.count (TrainEvent.zeroGrad 1) = 1 := by decide
  have hs0 : epochTrace.count (TrainEvent.stepOpt 0) = 1 := by decide
  have hs1 : epochTrace.count (TrainEvent.stepOpt 1) = 1 := by decide
  refine ⟨rfl, by decide, ?_, ?_, ?_, ?_⟩ <;>
    rw [runTrace_count] <;> simp [hz0, hz1, hs0, hs1]

/-! ## Aggregation in `main` (line 177)

`np.array(accs).mean()` is the arithmetic mean and `np.array(accs).std()`
(default `ddof = 0`) is the population standard deviation, i.e. the
square root of the mean squared deviation with divisor `n`. -/

/-- Embedding of `np.array(xs).mean()`: arithmetic mean. -/
def reportedMean (xs : List ℚ) : ℚ := xs.sum / (xs.length : ℚ)

/-- The variance with population divisor `n`, as `np.std` uses with its
default `ddof = 0`. -/
def popVariance (xs : List ℚ) : ℚ :=
  (xs.map (fun x => (x - reportedMean xs) ^ 2)).sum / (xs.length : ℚ)

/-- The variance with sample divisor `n - 1` (`ddof = 1`), which the
script does NOT use. -/
def sampleVariance (xs : List ℚ) : ℚ :=
  (xs.map (fun x => (x - reportedMean xs) ^ 2)).sum
    / ((xs.length : ℚ) - 1)

/-- Embedding of `np.array(xs).std()`: square root of the population variance. -/
noncomputable def reportedStd (xs : List ℚ) : ℝ :=
  Real.sqrt (popVariance xs)

/-- C9: the aggregate reported after all cross-validation runs is the
arithmetic mean and the population standard deviation (divisor `n`);
on the metric sequence [0.80, 0.82, 0.78] the mean is 0.80 and the
squared reported deviation is 1/3750 — the population value, distinct
from the sample (divisor `n - 1`) value 1/2500. -/
theorem aggregate_mean_population_std :
    (∀ xs : List ℚ, reportedStd xs = Real.sqrt (popVariance xs)) ∧
    reportedMean [4/5, 41/50, 39/50] = 4/5 ∧
    popVariance [4/5, 41/50, 39/50] = 1/3750 ∧
    reportedStd [4/5, 41/50, 39/50] = Real.sqrt ((1 : ℝ)/3750) ∧
    sampleVariance [4/5, 41/50, 39/50] = 1/2500 ∧
    popVariance [4/5, 41/50, 39/50]
      ≠ sampleVariance [4/5, 41/50, 39/50] := by
  have hmean : reportedMean [4/5, 41/50, 39/50] = 4/5 := by
    norm_num [reportedMean]
  have hpop : popVariance [4/5, 41/50, 39/50] = 1/3750 := by
    norm_num [popVariance, hmean]
  have hsample : sampleVariance [4/5, 41/50, 39/50] = 1/2500 := by
    norm_num [sampleVariance, hmean]
  refine ⟨fun xs => rfl, hmean, hpop, ?_, hsample, ?_⟩
  · rw [reportedStd, hpop]; norm_num
  · rw [hpop, hsample]; norm_num

end Clenshaw
